import Mathlib

/-!
Verification of the `Transformer` effect-chain builder from `sox/transform.py`.

The Python source is shallowly embedded: every command-line token handed to
the external engine is a value of the inductive type `Tok` (literal strings
stay strings; tokens rendered from Python numbers carry the rational value
together with the suffix or joining scheme used by the `'{}'.format` call
that produced them, since the exact decimal rendering of a Python float is
outside the embedding).  The mutable `Transformer` object becomes the record
`TState`; every builder method becomes a function
`TState → ... → Except TState TState` whose `error` result carries the state
of the object at the moment the `ValueError` was raised (Python exceptions
do not roll back earlier mutations of `self`, so a method that mutates
before raising is modelled faithfully).  External collaborators (the `sox`
engine, the `play` invoker, and the `file_info` path validators) are passed
in as function parameters, mirroring their out-of-scope interface role.
-/

namespace Sox

/-- One command-line token.  `lit` is a fixed string from the source;
`num x` is `'{}'.format(x)` applied to a Python number of value `x`;
`numQ`/`numS`/`pct` are the `'{}q'`, `'{}s'`, `'{}%'` variants;
`pair a b` is `'{},{}'.format(a, b)`; `join xs` is `','.join` over the
rendered numbers `xs`; `knee k xs` is `'{}:{}'.format(k, ','.join(xs))`;
`path p` is a file path passed through verbatim. -/
inductive Tok where
  | lit : String → Tok
  | num : ℚ → Tok
  | numQ : ℚ → Tok
  | numS : ℚ → Tok
  | pct : ℚ → Tok
  | pair : ℚ → ℚ → Tok
  | join : List ℚ → Tok
  | knee : ℚ → List ℚ → Tok
  | path : String → Tok
  deriving DecidableEq, Repr

/-- The mutable attributes of a `Transformer` (set in `__init__`). -/
structure TState where
  input_format : List Tok
  output_format : List Tok
  effects : List Tok
  effects_log : List String
  globals : List Tok
  deriving DecidableEq, Repr

deriving instance DecidableEq for Except

/-- The state every attribute list starts from in `__init__` before
`set_globals()` is invoked. -/
def emptyState : TState := ⟨[], [], [], [], []⟩

/-- `VERBOSITY_VALS` from the module header. -/
def VERBOSITY_VALS : List ℤ := [0, 1, 2, 3, 4]

/-- `ENCODING_VALS` from the module header. -/
def ENCODING_VALS : List String :=
  ["signed-integer", "unsigned-integer", "floating-point", "a-law", "u-law",
   "oki-adpcm", "ima-adpcm", "ms-adpcm", "gsm-full-rate"]

/-- Modelled from the spec: `VALID_FORMATS`, the fixed whitelist of
container/codec identifiers, lives in `sox/core.py` which is not part of
the given source; the spec only requires it to be a fixed list of format
names, so a representative fixed list is used. -/
def VALID_FORMATS : List String := ["aiff", "flac", "mp3", "ogg", "wav"]

/-- The shared commit step of every effect method: extend `self.effects`
with the computed `effect_args` and append the effect's canonical name to
`self.effects_log`. -/
def addE (s : TState) (args : List Tok) (name : String) : TState :=
  { s with effects := s.effects ++ args, effects_log := s.effects_log ++ [name] }

/-- The `global_args` list assembled by `Transformer.set_globals` after
validation. -/
def globalTokens (dither guard multithread replay_gain : Bool)
    (verbosity : ℤ) : List Tok :=
  let global_args : List Tok := []
  let global_args := if ¬ dither then global_args ++ [Tok.lit "-D"] else global_args
  let global_args := if guard then global_args ++ [Tok.lit "-G"] else global_args
  let global_args := if multithread then global_args ++ [Tok.lit "--multi-threaded"] else global_args
  let global_args := if replay_gain then global_args ++ [Tok.lit "--replay-gain", Tok.lit "track"] else global_args
  global_args ++ [Tok.lit ("-V" ++ toString verbosity)]

/-- `Transformer.set_globals`. -/
def set_globals (s : TState) (dither guard multithread replay_gain : Bool)
    (verbosity : ℤ) : Except TState TState :=
  if verbosity ∉ VERBOSITY_VALS then .error s
  else .ok { s with globals := globalTokens dither guard multithread replay_gain verbosity }

/-- The state of a fresh `Transformer()`: empty lists, then
`set_globals()` with its defaults. -/
def initState : TState :=
  match set_globals emptyState false false false false 2 with
  | .ok s => s
  | .error s => s

/-- The `flag, value` pairs both format setters emit for the fields they
share, in the fixed field order: type, rate, bits, channels, encoding.
Absent fields contribute nothing. -/
def formatTokens (file_type : Option String) (rate : Option ℚ)
    (bits channels : Option ℤ) (encoding : Option String) : List Tok :=
  (match file_type with | some ft => [Tok.lit "-t", Tok.lit ft] | none => []) ++
  (match rate with | some r => [Tok.lit "-r", Tok.num r] | none => []) ++
  (match bits with | some b => [Tok.lit "-b", Tok.num (b : ℚ)] | none => []) ++
  (match channels with | some c => [Tok.lit "-c", Tok.num (c : ℚ)] | none => []) ++
  (match encoding with | some e => [Tok.lit "-e", Tok.lit e] | none => [])

/-- `Transformer.set_input_format`. -/
def set_input_format (s : TState) (file_type : Option String) (rate : Option ℚ)
    (bits : Option ℤ) (channels : Option ℤ) (encoding : Option String)
    (ignore_length : Bool) : Except TState TState :=
  if (match file_type with | none => false | some ft => ft ∉ VALID_FORMATS) then .error s
  else if (match rate with | none => false | some r => r ≤ 0) then .error s
  else if (match bits with | none => false | some b => b ≤ 0) then .error s
  else if (match channels with | none => false | some c => c ≤ 0) then .error s
  else if (match encoding with | none => false | some e => e ∉ ENCODING_VALS) then .error s
  else
    let fmt := formatTokens file_type rate bits channels encoding ++
      (if ignore_length then [Tok.lit "--ignore-length"] else [])
    .ok { s with input_format := fmt }

/-- `Transformer.set_output_format`. -/
def set_output_format (s : TState) (file_type : Option String) (rate : Option ℚ)
    (bits : Option ℤ) (channels : Option ℤ) (encoding : Option String)
    (comments : Option String) (append_comments : Bool) : Except TState TState :=
  if (match file_type with | none => false | some ft => ft ∉ VALID_FORMATS) then .error s
  else if (match rate with | none => false | some r => r ≤ 0) then .error s
  else if (match bits with | none => false | some b => b ≤ 0) then .error s
  else if (match channels with | none => false | some c => c ≤ 0) then .error s
  else if (match encoding with | none => false | some e => e ∉ ENCODING_VALS) then .error s
  else
    let fmt := formatTokens file_type rate bits channels encoding ++
      (match comments with
       | some cm =>
           if append_comments then [Tok.lit "--add-comment", Tok.lit cm]
           else [Tok.lit "--comment", Tok.lit cm]
       | none => [])
    .ok { s with output_format := fmt }

/-- `Transformer.allpass`. -/
def allpass (s : TState) (frequency : ℚ) (width_q : ℚ) : Except TState TState :=
  if frequency ≤ 0 then .error s
  else if width_q ≤ 0 then .error s
  else .ok (addE s [Tok.lit "allpass", Tok.num frequency, Tok.numQ width_q] "allpass")

/-- The `fade_shapes` list local to `Transformer.fade`. -/
def fade_shapes : List String := ["q", "h", "t", "l", "p"]

/-- `Transformer.fade`. -/
def fade (s : TState) (fade_in_len fade_out_len : ℚ) (fade_shape : String) :
    Except TState TState :=
  if fade_shape ∉ fade_shapes then .error s
  else if fade_in_len < 0 then .error s
  else if fade_out_len < 0 then .error s
  else
    let effect_args : List Tok := []
    let effect_args := if 0 < fade_in_len then
        effect_args ++ [Tok.lit "fade", Tok.lit fade_shape, Tok.num fade_in_len]
      else effect_args
    let effect_args := if 0 < fade_out_len then
        effect_args ++ [Tok.lit "reverse", Tok.lit "fade", Tok.lit fade_shape,
                        Tok.num fade_out_len, Tok.lit "reverse"]
      else effect_args
    if 0 < effect_args.length then .ok (addE s effect_args "fade") else .ok s

/-- Insertion of one transfer-function point keyed on the x-value; the
building block of the model of Python's keyed `sorted` call. -/
def insertTf (p : ℚ × ℚ) : List (ℚ × ℚ) → List (ℚ × ℚ)
  | [] => [p]
  | q :: rest => if p.1 ≤ q.1 then p :: q :: rest else q :: insertTf p rest

/-- `sorted(tf_points, key=lambda tf_points: tf_points[0])` from
`Transformer.compand`, modelled as an insertion sort on the x-value. -/
def sortTf : List (ℚ × ℚ) → List (ℚ × ℚ)
  | [] => []
  | p :: rest => insertTf p (sortTf rest)

/-- The `transfer_list` loop of `Transformer.compand`: each point
contributes its x-value then its y-value. -/
def tfFlatten : List (ℚ × ℚ) → List ℚ
  | [] => []
  | p :: rest => p.1 :: p.2 :: tfFlatten rest

/-- `Transformer.compand`. -/
def compand (s : TState) (attack_time decay_time : ℚ) (soft_knee_db : Option ℚ)
    (tf_points : List (ℚ × ℚ)) : Except TState TState :=
  if attack_time ≤ 0 then .error s
  else if decay_time ≤ 0 then .error s
  else if tf_points.length = 0 then .error s
  else if tf_points.any (fun p => decide (0 < p.1) || decide (0 < p.2)) then .error s
  else if ¬ (tf_points.map Prod.fst).Nodup then .error s
  else
    let transfer_list := tfFlatten (sortTf tf_points)
    let effect_args := [Tok.lit "compand", Tok.pair attack_time decay_time] ++
      (match soft_knee_db with
       | some k => [Tok.knee k transfer_list]
       | none => [Tok.join transfer_list])
    .ok (addE s effect_args "compand")

/-- `Transformer.trim`. -/
def trim (s : TState) (start_time end_time : ℚ) : Except TState TState :=
  if start_time < 0 then .error s
  else if end_time < 0 then .error s
  else if end_time ≤ start_time then .error s
  else .ok (addE s [Tok.lit "trim", Tok.num start_time, Tok.num (end_time - start_time)] "trim")

/-- The condition under which `Transformer.pitch` emits its non-fatal
`logging.warning` about extreme shifts. -/
def pitchWarns (n_semitones : ℚ) : Bool :=
  decide (n_semitones < -12) || decide (12 < n_semitones)

/-- `Transformer.pitch`. -/
def pitch (s : TState) (n_semitones : ℚ) (quick : Bool) : Except TState TState :=
  let effect_args := [Tok.lit "pitch"] ++ (if quick then [Tok.lit "-q"] else []) ++
    [Tok.num (n_semitones * 100)]
  .ok (addE s effect_args "pitch")

/-- The `quality_vals` list local to `Transformer.rate`. -/
def quality_vals : List String := ["q", "l", "m", "h", "v"]

/-- `Transformer.rate`. -/
def rate (s : TState) (samplerate : ℚ) (quality : String) : Except TState TState :=
  if samplerate ≤ 0 then .error s
  else if quality ∉ quality_vals then .error s
  else .ok (addE s [Tok.lit "rate", Tok.lit ("-" ++ quality), Tok.num samplerate] "rate")

/-- `Transformer.norm`. -/
def norm (s : TState) (db_level : ℚ) : Except TState TState :=
  .ok (addE s [Tok.lit "norm", Tok.num db_level] "norm")

/-- `Transformer.reverse`. -/
def reverse (s : TState) : Except TState TState :=
  .ok (addE s [Tok.lit "reverse"] "reverse")

/-- The `effect_args` sequence assembled by `Transformer.silence` after
validation. -/
def silenceTokens (location : ℤ) (silence_threshold min_silence_duration : ℚ)
    (buffer_around_silence : Bool) : List Tok :=
  let effect_args : List Tok := if location = -1 then [Tok.lit "reverse"] else []
  let effect_args := effect_args ++
    (if buffer_around_silence then [Tok.lit "silence", Tok.lit "-l"] else [Tok.lit "silence"])
  let effect_args := effect_args ++
    [Tok.lit "1", Tok.num min_silence_duration, Tok.pct silence_threshold]
  let effect_args := effect_args ++
    (if location = 0 then [Tok.lit "-1", Tok.num min_silence_duration, Tok.pct silence_threshold] else [])
  effect_args ++ (if location = -1 then [Tok.lit "reverse"] else [])

/-- `Transformer.silence`. -/
def silence (s : TState) (location : ℤ) (silence_threshold min_silence_duration : ℚ)
    (buffer_around_silence : Bool) : Except TState TState :=
  if location ∉ ([-1, 0, 1] : List ℤ) then .error s
  else if silence_threshold < 0 then .error s
  else if 100 ≤ silence_threshold then .error s
  else if min_silence_duration ≤ 0 then .error s
  else .ok (addE s (silenceTokens location silence_threshold min_silence_duration
                     buffer_around_silence) "silence")

/-- The eleven tokens of the `vad` invocation proper (the `'vad'` token and
its `flag, value` parameter pairs), shared by both locations. -/
def vadCore (activity_threshold min_activity_duration initial_search_buffer
    max_gap initial_pad : ℚ) : List Tok :=
  [Tok.lit "vad",
   Tok.lit "-t", Tok.num activity_threshold,
   Tok.lit "-T", Tok.num min_activity_duration,
   Tok.lit "-s", Tok.num initial_search_buffer,
   Tok.lit "-g", Tok.num max_gap,
   Tok.lit "-p", Tok.num initial_pad]

/-- The `effect_args` sequence assembled by `Transformer.vad` after
validation. -/
def vadTokens (location : ℤ) (normalize : Bool) (activity_threshold
    min_activity_duration initial_search_buffer max_gap initial_pad : ℚ) : List Tok :=
  let effect_args : List Tok := if normalize then [Tok.lit "norm"] else []
  let effect_args := effect_args ++ (if location = -1 then [Tok.lit "reverse"] else [])
  let effect_args := effect_args ++ vadCore activity_threshold min_activity_duration
    initial_search_buffer max_gap initial_pad
  effect_args ++ (if location = -1 then [Tok.lit "reverse"] else [])

/-- `Transformer.vad`. -/
def vad (s : TState) (location : ℤ) (normalize : Bool) (activity_threshold
    min_activity_duration initial_search_buffer max_gap initial_pad : ℚ) :
    Except TState TState :=
  if location ∉ ([-1, 1] : List ℤ) then .error s
  else if min_activity_duration < 0 then .error s
  else if initial_search_buffer < 0 then .error s
  else if max_gap < 0 then .error s
  else if initial_pad < 0 then .error s
  else .ok (addE s (vadTokens location normalize activity_threshold
    min_activity_duration initial_search_buffer max_gap initial_pad) "vad")

/-- The `bitdepths` list local to `Transformer.convert`. -/
def bitdepths : List ℤ := [8, 16, 24, 32, 64]

/-- The final block of `Transformer.convert`: validate `samplerate` and
delegate to `self.rate(samplerate)` (whose `quality` keeps its default
`'h'`). -/
def convert_rate_step (s : TState) (samplerate : Option ℚ) : Except TState TState :=
  match samplerate with
  | none => .ok s
  | some sr => if sr ≤ 0 then .error s else rate s sr "h"

/-- The middle block of `Transformer.convert`: validate `n_channels` and
extend `self.output_format` before moving on. -/
def convert_channels_step (s : TState) (n_channels : Option ℤ)
    (samplerate : Option ℚ) : Except TState TState :=
  match n_channels with
  | none => convert_rate_step s samplerate
  | some c =>
      if c ≤ 0 then .error s
      else convert_rate_step
        { s with output_format := s.output_format ++ [Tok.lit "-c", Tok.num (c : ℚ)] }
        samplerate

/-- `Transformer.convert`: the `bitdepth` block runs first, mutating
`self.output_format` before the later parameter blocks are validated. -/
def convert (s : TState) (samplerate : Option ℚ) (n_channels : Option ℤ)
    (bitdepth : Option ℤ) : Except TState TState :=
  match bitdepth with
  | none => convert_channels_step s n_channels samplerate
  | some b =>
      if b ∈ bitdepths then
        convert_channels_step
          { s with output_format := s.output_format ++ [Tok.lit "-b", Tok.num (b : ℚ)] }
          n_channels samplerate
      else .error s

/-- The errors `Transformer.build` can raise: a path-validator failure from
`file_info`, or `SoxError` carrying the engine's captured stdout and
stderr. -/
inductive BuildErr where
  | invalidInputPath
  | invalidOutputPath
  | soxError (out err : String)
  deriving DecidableEq, Repr

/-- The `args` list assembled by `Transformer.build` through its sequence
of `extend`/`append` calls. -/
def buildArgs (s : TState) (input_filepath output_filepath : String) : List Tok :=
  let args : List Tok := []
  let args := args ++ s.globals
  let args := args ++ s.input_format
  let args := args ++ [Tok.path input_filepath]
  let args := args ++ s.output_format
  let args := args ++ [Tok.path output_filepath]
  args ++ s.effects

/-- `Transformer.build`: validate both paths through the `file_info`
collaborator, hand `args` to the `sox` engine, and succeed exactly when the
engine exits with status `0`. -/
def build (validIn validOut : String → Bool)
    (engine : List Tok → ℤ × String × String) (s : TState)
    (input_filepath output_filepath : String) : Except BuildErr Bool :=
  if validIn input_filepath = false then .error BuildErr.invalidInputPath
  else if validOut output_filepath = false then .error BuildErr.invalidOutputPath
  else
    match engine (buildArgs s input_filepath output_filepath) with
    | (status, out, err) =>
        if status ≠ 0 then .error (BuildErr.soxError out err) else .ok true

/-- The `args` list assembled by `Transformer.preview`.  No path validator
is involved: the path is consumed verbatim. -/
def previewArgs (s : TState) (input_filepath : String) : List Tok :=
  let args : List Tok := [Tok.lit "play", Tok.lit "--no-show-progress"]
  let args := args ++ s.globals
  let args := args ++ s.input_format
  let args := args ++ [Tok.path input_filepath]
  args ++ s.effects

/-- `Transformer.preview`: delegate the assembled tokens to the playback
collaborator. -/
def preview {α : Type} (player : List Tok → α) (s : TState)
    (input_filepath : String) : α :=
  player (previewArgs s input_filepath)

/-- One builder-method invocation with its arguments, covering the setter
methods, the effect methods the claims are about, and the `convert`
helper. -/
inductive Call where
  | setGlobals (dither guard multithread replay_gain : Bool) (verbosity : ℤ)
  | setInputFormat (file_type : Option String) (rate : Option ℚ)
      (bits channels : Option ℤ) (encoding : Option String) (ignore_length : Bool)
  | setOutputFormat (file_type : Option String) (rate : Option ℚ)
      (bits channels : Option ℤ) (encoding : Option String)
      (comments : Option String) (append_comments : Bool)
  | allpassC (frequency width_q : ℚ)
  | fadeC (fade_in_len fade_out_len : ℚ) (fade_shape : String)
  | compandC (attack_time decay_time : ℚ) (soft_knee_db : Option ℚ)
      (tf_points : List (ℚ × ℚ))
  | trimC (start_time end_time : ℚ)
  | pitchC (n_semitones : ℚ) (quick : Bool)
  | rateC (samplerate : ℚ) (quality : String)
  | normC (db_level : ℚ)
  | reverseC
  | silenceC (location : ℤ) (silence_threshold min_silence_duration : ℚ)
      (buffer_around_silence : Bool)
  | vadC (location : ℤ) (normalize : Bool) (activity_threshold
      min_activity_duration initial_search_buffer max_gap initial_pad : ℚ)
  | convertC (samplerate : Option ℚ) (n_channels bitdepth : Option ℤ)
  deriving DecidableEq, Repr

/-- Dispatch a builder-method invocation to its embedding. -/
def applyCall (c : Call) (s : TState) : Except TState TState :=
  match c with
  | Call.setGlobals d g m r v => set_globals s d g m r v
  | Call.setInputFormat ft r b ch e il => set_input_format s ft r b ch e il
  | Call.setOutputFormat ft r b ch e cm ac => set_output_format s ft r b ch e cm ac
  | Call.allpassC f w => allpass s f w
  | Call.fadeC fi fo sh => fade s fi fo sh
  | Call.compandC a d k tf => compand s a d k tf
  | Call.trimC st et => trim s st et
  | Call.pitchC n q => pitch s n q
  | Call.rateC sr q => rate s sr q
  | Call.normC db => norm s db
  | Call.reverseC => reverse s
  | Call.silenceC loc th dur buf => silence s loc th dur buf
  | Call.vadC loc nz ath mad isb mg ip => vad s loc nz ath mad isb mg ip
  | Call.convertC sr nc bd => convert s sr nc bd

/-- Whether a call is the `convert` helper. -/
def Call.isConvert : Call → Bool
  | Call.convertC _ _ _ => true
  | _ => false

/-- The state of the `Transformer` after a call, whether or not it raised
(a Python exception leaves `self` as it was at the raise). -/
def stepState (c : Call) (s : TState) : TState :=
  match applyCall c s with
  | .ok t => t
  | .error t => t

/-- Whether a call returns without raising. -/
def callOk (c : Call) (s : TState) : Bool :=
  match applyCall c s with
  | .ok _ => true
  | .error _ => false

/-- Whether a call returns without raising and extends `self.effects`. -/
def callCommits (c : Call) (s : TState) : Bool :=
  match applyCall c s with
  | .ok t => decide (s.effects.length < t.effects.length)
  | .error _ => false

/-- Run a sequence of builder-method invocations, each observing the state
the previous one left behind (raised exceptions are caught by the caller,
who keeps using the same object). -/
def runCalls : List Call → TState → TState
  | [], s => s
  | c :: cs, s => runCalls cs (stepState c s)

/-- How many invocations of the sequence return without raising. -/
def okCount : List Call → TState → Nat
  | [], _ => 0
  | c :: cs, s => (if callOk c s then 1 else 0) + okCount cs (stepState c s)

/-- How many invocations of the sequence return without raising and extend
`self.effects`. -/
def commitCount : List Call → TState → Nat
  | [], _ => 0
  | c :: cs, s => (if callCommits c s then 1 else 0) + commitCount cs (stepState c s)

/-- Every builder call lands in one of three shapes relative to the state
it was given: it raises without having touched `effects`/`effects_log`, it
returns leaving both untouched, or it returns having appended a non-empty
token group and exactly one log entry. -/
def StepShape (s : TState) (r : Except TState TState) : Prop :=
  (∃ t, r = .error t ∧ t.effects = s.effects ∧ t.effects_log = s.effects_log) ∨
  (∃ t, r = .ok t ∧ t.effects = s.effects ∧ t.effects_log = s.effects_log) ∨
  (∃ t args name, args ≠ [] ∧ r = .ok t ∧ t.effects = s.effects ++ args ∧
    t.effects_log = s.effects_log ++ [name])

/-- The ordering on transfer-function points used by `compand`'s `sorted`
call: comparison of the x-values. -/
def keyLE (p q : ℚ × ℚ) : Prop := p.1 ≤ q.1

/-- A configured transformer with one token in each section, used to
exercise `build`'s assembly order on a concrete state. -/
def demoState : TState :=
  { input_format := [Tok.lit "-t", Tok.lit "wav"],
    output_format := [Tok.lit "-r", Tok.num 8000],
    effects := [Tok.lit "reverse"],
    effects_log := ["reverse"],
    globals := [Tok.lit "-D", Tok.lit "-V2"] }

theorem insertTf_perm (p : ℚ × ℚ) :
    ∀ l : List (ℚ × ℚ), List.Perm (insertTf p l) (p :: l) := by
  intro l
  induction l with
  | nil => simp [insertTf]
  | cons q rest ih =>
      unfold insertTf
      by_cases h : p.1 ≤ q.1
      · rw [if_pos h]
      · rw [if_neg h]
        exact (List.Perm.cons q ih).trans (List.Perm.swap p q rest)

theorem insertTf_sorted (p : ℚ × ℚ) :
    ∀ l : List (ℚ × ℚ), List.Sorted keyLE l → List.Sorted keyLE (insertTf p l) := by
  intro l
  induction l with
  | nil => intro _; simp [insertTf, List.Sorted]
  | cons q rest ih =>
      intro hs
      rw [List.sorted_cons] at hs
      unfold insertTf
      by_cases h : p.1 ≤ q.1
      · rw [if_pos h, List.sorted_cons]
        refine ⟨?_, List.sorted_cons.mpr hs⟩
        intro b hb
        rcases List.mem_cons.mp hb with rfl | hb2
        · exact h
        · exact le_trans h (hs.1 b hb2)
      · rw [if_neg h, List.sorted_cons]
        refine ⟨?_, ih hs.2⟩
        intro b hb
        have hb2 := (insertTf_perm p rest).mem_iff.mp hb
        rcases List.mem_cons.mp hb2 with rfl | hb3
        · exact le_of_not_le h
        · exact hs.1 b hb3

theorem sortTf_perm : ∀ l : List (ℚ × ℚ), List.Perm (sortTf l) l := by
  intro l
  induction l with
  | nil => simp [sortTf]
  | cons p rest ih =>
      exact (insertTf_perm p (sortTf rest)).trans (List.Perm.cons p ih)

theorem sortTf_sorted : ∀ l : List (ℚ × ℚ), List.Sorted keyLE (sortTf l) := by
  intro l
  induction l with
  | nil => simp [sortTf, List.Sorted]
  | cons p rest ih => exact insertTf_sorted p (sortTf rest) ih

theorem stepShape_set_globals (s : TState) (d g m r : Bool) (v : ℤ) :
    StepShape s (set_globals s d g m r v) := by
  simp only [set_globals]
  split_ifs
  all_goals first
    | exact Or.inl ⟨s, rfl, rfl, rfl⟩
    | exact Or.inr (Or.inl ⟨_, rfl, rfl, rfl⟩)

theorem stepShape_set_input_format (s : TState) (ft : Option String) (r : Option ℚ)
    (b ch : Option ℤ) (e : Option String) (il : Bool) :
    StepShape s (set_input_format s ft r b ch e il) := by
  simp only [set_input_format]
  split_ifs
  all_goals first
    | exact Or.inl ⟨s, rfl, rfl, rfl⟩
    | exact Or.inr (Or.inl ⟨_, rfl, rfl, rfl⟩)

theorem stepShape_set_output_format (s : TState) (ft : Option String) (r : Option ℚ)
    (b ch : Option ℤ) (e : Option String) (cm : Option String) (ac : Bool) :
    StepShape s (set_output_format s ft r b ch e cm ac) := by
  simp only [set_output_format]
  split_ifs
  all_goals first
    | exact Or.inl ⟨s, rfl, rfl, rfl⟩
    | exact Or.inr (Or.inl ⟨_, rfl, rfl, rfl⟩)

theorem stepShape_allpass (s : TState) (f w : ℚ) : StepShape s (allpass s f w) := by
  simp only [allpass]
  split_ifs
  all_goals first
    | exact Or.inl ⟨s, rfl, rfl, rfl⟩
    | exact Or.inr (Or.inr ⟨_, _, "allpass", List.cons_ne_nil _ _, rfl, rfl, rfl⟩)

theorem stepShape_fade (s : TState) (fi fo : ℚ) (sh : String) :
    StepShape s (fade s fi fo sh) := by
  simp only [fade]
  split_ifs
  all_goals first
    | exact Or.inl ⟨s, rfl, rfl, rfl⟩
    | exact Or.inr (Or.inl ⟨s, rfl, rfl, rfl⟩)
    | exact Or.inr (Or.inr ⟨_, _, "fade", List.cons_ne_nil _ _, rfl, rfl, rfl⟩)
    | (rename_i hlen; exact absurd hlen (by simp))

theorem stepShape_compand (s : TState) (a d : ℚ) (k : Option ℚ)
    (tf : List (ℚ × ℚ)) : StepShape s (compand s a d k tf) := by
  simp only [compand]
  split_ifs
  all_goals first
    | exact Or.inl ⟨s, rfl, rfl, rfl⟩
    | exact Or.inr (Or.inr ⟨_, _, "compand", List.cons_ne_nil _ _, rfl, rfl, rfl⟩)

theorem stepShape_trim (s : TState) (st et : ℚ) : StepShape s (trim s st et) := by
  simp only [trim]
  split_ifs
  all_goals first
    | exact Or.inl ⟨s, rfl, rfl, rfl⟩
    | exact Or.inr (Or.inr ⟨_, _, "trim", List.cons_ne_nil _ _, rfl, rfl, rfl⟩)

theorem stepShape_pitch (s : TState) (n : ℚ) (q : Bool) : StepShape s (pitch s n q) := by
  simp only [pitch]
  exact Or.inr (Or.inr ⟨_, _, "pitch", List.cons_ne_nil _ _, rfl, rfl, rfl⟩)

theorem stepShape_rate (s : TState) (sr : ℚ) (q : String) :
    StepShape s (rate s sr q) := by
  simp only [rate]
  split_ifs
  all_goals first
    | exact Or.inl ⟨s, rfl, rfl, rfl⟩
    | exact Or.inr (Or.inr ⟨_, _, "rate", List.cons_ne_nil _ _, rfl, rfl, rfl⟩)

theorem stepShape_norm (s : TState) (db : ℚ) : StepShape s (norm s db) :=
  Or.inr (Or.inr ⟨_, _, "norm", List.cons_ne_nil _ _, rfl, rfl, rfl⟩)

theorem stepShape_reverse (s : TState) : StepShape s (reverse s) :=
  Or.inr (Or.inr ⟨_, _, "reverse", List.cons_ne_nil _ _, rfl, rfl, rfl⟩)

theorem silenceTokens_ne_nil (loc : ℤ) (th dur : ℚ) (buf : Bool) :
    silenceTokens loc th dur buf ≠ [] := by
  simp only [silenceTokens]
  split_ifs <;> simp

theorem stepShape_silence (s : TState) (loc : ℤ) (th dur : ℚ) (buf : Bool) :
    StepShape s (silence s loc th dur buf) := by
  simp only [silence]
  split_ifs
  all_goals first
    | exact Or.inl ⟨s, rfl, rfl, rfl⟩
    | exact Or.inr (Or.inr ⟨_, _, "silence", silenceTokens_ne_nil loc th dur buf, rfl, rfl, rfl⟩)

theorem vadTokens_ne_nil (loc : ℤ) (nz : Bool) (ath mad isb mg ip : ℚ) :
    vadTokens loc nz ath mad isb mg ip ≠ [] := by
  simp only [vadTokens, vadCore]
  split_ifs <;> simp

theorem stepShape_vad (s : TState) (loc : ℤ) (nz : Bool) (ath mad isb mg ip : ℚ) :
    StepShape s (vad s loc nz ath mad isb mg ip) := by
  simp only [vad]
  split_ifs
  all_goals first
    | exact Or.inl ⟨s, rfl, rfl, rfl⟩
    | exact Or.inr (Or.inr ⟨_, _, "vad", vadTokens_ne_nil loc nz ath mad isb mg ip, rfl, rfl, rfl⟩)

theorem stepShape_convert_rate_step (s : TState) (sr : Option ℚ) :
    StepShape s (convert_rate_step s sr) := by
  cases sr with
  | none => exact Or.inr (Or.inl ⟨s, rfl, rfl, rfl⟩)
  | some v =>
      simp only [convert_rate_step]
      split_ifs
      · exact Or.inl ⟨s, rfl, rfl, rfl⟩
      · exact stepShape_rate s v "h"

theorem stepShape_convert_channels_step (s : TState) (nc : Option ℤ)
    (sr : Option ℚ) : StepShape s (convert_channels_step s nc sr) := by
  cases nc with
  | none => exact stepShape_convert_rate_step s sr
  | some c =>
      simp only [convert_channels_step]
      split_ifs
      · exact Or.inl ⟨s, rfl, rfl, rfl⟩
      · exact stepShape_convert_rate_step
          { s with output_format := s.output_format ++ [Tok.lit "-c", Tok.num (c : ℚ)] } sr

theorem stepShape_convert (s : TState) (sr : Option ℚ) (nc bd : Option ℤ) :
    StepShape s (convert s sr nc bd) := by
  cases bd with
  | none => exact stepShape_convert_channels_step s nc sr
  | some b =>
      simp only [convert]
      split_ifs
      · exact stepShape_convert_channels_step
          { s with output_format := s.output_format ++ [Tok.lit "-b", Tok.num (b : ℚ)] } nc sr
      · exact Or.inl ⟨s, rfl, rfl, rfl⟩

theorem applyCall_shape (c : Call) (s : TState) : StepShape s (applyCall c s) := by
  cases c with
  | setGlobals d g m r v => exact stepShape_set_globals s d g m r v
  | setInputFormat ft r b ch e il => exact stepShape_set_input_format s ft r b ch e il
  | setOutputFormat ft r b ch e cm ac => exact stepShape_set_output_format s ft r b ch e cm ac
  | allpassC f w => exact stepShape_allpass s f w
  | fadeC fi fo sh => exact stepShape_fade s fi fo sh
  | compandC a d k tf => exact stepShape_compand s a d k tf
  | trimC st et => exact stepShape_trim s st et
  | pitchC n q => exact stepShape_pitch s n q
  | rateC sr q => exact stepShape_rate s sr q
  | normC db => exact stepShape_norm s db
  | reverseC => exact stepShape_reverse s
  | silenceC loc th dur buf => exact stepShape_silence s loc th dur buf
  | vadC loc nz ath mad isb mg ip => exact stepShape_vad s loc nz ath mad isb mg ip
  | convertC sr nc bd => exact stepShape_convert s sr nc bd

theorem rate_error_eq (s t : TState) (sr : ℚ) (q : String)
    (h : rate s sr q = .error t) : t = s := by
  simp only [rate] at h
  split_ifs at h
  all_goals first
    | (injection h with h2; exact h2.symm)
    | injection h

theorem convert_rate_step_error_eq (s t : TState) (sr : Option ℚ)
    (h : convert_rate_step s sr = .error t) : t = s := by
  cases sr with
  | none => injection h
  | some v =>
      simp only [convert_rate_step] at h
      split_ifs at h
      · injection h with h2; exact h2.symm
      · exact rate_error_eq s t v "h" h

theorem convert_channels_step_error_fields (s t : TState) (nc : Option ℤ)
    (sr : Option ℚ) (h : convert_channels_step s nc sr = .error t) :
    t.effects = s.effects ∧ t.effects_log = s.effects_log ∧
      t.globals = s.globals ∧ t.input_format = s.input_format := by
  cases nc with
  | none =>
      have := convert_rate_step_error_eq s t sr h
      subst this
      exact ⟨rfl, rfl, rfl, rfl⟩
  | some c =>
      simp only [convert_channels_step] at h
      split_ifs at h
      · injection h with h2
        subst h2
        exact ⟨rfl, rfl, rfl, rfl⟩
      · have := convert_rate_step_error_eq _ t sr h
        subst this
        exact ⟨rfl, rfl, rfl, rfl⟩

theorem convert_error_fields (s t : TState) (sr : Option ℚ) (nc bd : Option ℤ)
    (h : convert s sr nc bd = .error t) :
    t.effects = s.effects ∧ t.effects_log = s.effects_log ∧
      t.globals = s.globals ∧ t.input_format = s.input_format := by
  cases bd with
  | none => exact convert_channels_step_error_fields s t nc sr h
  | some b =>
      simp only [convert] at h
      split_ifs at h
      · exact convert_channels_step_error_fields
          { s with output_format := s.output_format ++ [Tok.lit "-b", Tok.num (b : ℚ)] }
          t nc sr h
      · injection h with h2
        subst h2
        exact ⟨rfl, rfl, rfl, rfl⟩

theorem applyCall_error_eq (c : Call) (s t : TState) (hc : c.isConvert = false)
    (h : applyCall c s = .error t) : t = s := by
  cases c
  case convertC sr nc bd => exact absurd hc (by simp [Call.isConvert])
  all_goals
    simp only [applyCall, set_globals, set_input_format, set_output_format, allpass,
      fade, compand, trim, pitch, rate, norm, reverse, silence, vad] at h
  all_goals first
    | (split_ifs at h <;> first | (injection h with h2; exact h2.symm) | injection h)
    | injection h

theorem stepState_log_length (c : Call) (s : TState) :
    (stepState c s).effects_log.length =
      s.effects_log.length + (if callCommits c s then 1 else 0) := by
  rcases applyCall_shape c s with ⟨t, ht, he, hl⟩ | ⟨t, ht, he, hl⟩ |
    ⟨t, args, name, hne, ht, he, hl⟩
  · simp [stepState, callCommits, ht, hl]
  · simp [stepState, callCommits, ht, he, hl]
  · have hlt : s.effects.length < t.effects.length := by
      rw [he, List.length_append]
      have := List.length_pos.mpr hne
      omega
    simp [stepState, callCommits, ht, hl, hlt]

/-- C1: for every transformer state and every pair of paths the validators
accept, `build` passes the engine exactly the token sequence
`globals ++ input_format ++ [input_path] ++ output_format ++ [output_path]
++ effects`, in that fixed order, and succeeds exactly when the engine
exits with status zero. -/
theorem build_token_order (validIn validOut : String → Bool)
    (engine : List Tok → ℤ × String × String) (s : TState)
    (inp outp : String) (hin : validIn inp = true) (hout : validOut outp = true) :
    build validIn validOut engine s inp outp =
      (match engine (s.globals ++ s.input_format ++ [Tok.path inp] ++
          s.output_format ++ [Tok.path outp] ++ s.effects) with
       | (status, out, err) =>
           if status ≠ 0 then .error (BuildErr.soxError out err) else .ok true) := by
  have hargs : buildArgs s inp outp =
      s.globals ++ s.input_format ++ [Tok.path inp] ++
        s.output_format ++ [Tok.path outp] ++ s.effects := by
    simp [buildArgs]
  simp only [build, hin, hout, hargs]
  simp

theorem build_token_order_witness :
    build (fun _ => true) (fun _ => true) (fun _ => ((0 : ℤ), "", "")) demoState
      "in.wav" "out.wav" = .ok true := by
  have h := build_token_order (fun _ => true) (fun _ => true)
    (fun _ => ((0 : ℤ), "", "")) demoState "in.wav" "out.wav" rfl rfl
  simpa using h

/-- C2 counterexample: `convert(n_channels=0, bitdepth=16)` raises for
`n_channels` after the valid `bitdepth` group has already been committed to
`output_format`, so the state after the failed call differs from the state
before it. -/
theorem convert_partial_commit_counterexample :
    applyCall (Call.convertC none (some 0) (some 16)) initState =
      .error { initState with output_format := [Tok.lit "-b", Tok.num 16] } ∧
    { initState with output_format := [Tok.lit "-b", Tok.num 16] } ≠ initState := by
  constructor
  · decide
  · decide

/-- C2 (amended): every modelled builder call other than `convert` is
atomic — on a validation error the state is exactly what it was before the
call; a failed `convert` call may have committed output-format token pairs
of earlier valid parameter groups, but never touches `effects`,
`effects_log`, `globals` or `input_format`. -/
theorem builder_call_atomicity (c : Call) (s t : TState)
    (h : applyCall c s = .error t) :
    (c.isConvert = false → t = s) ∧
    (t.effects = s.effects ∧ t.effects_log = s.effects_log ∧
      t.globals = s.globals ∧ t.input_format = s.input_format) := by
  by_cases hcv : c.isConvert = false
  · have ht := applyCall_error_eq c s t hcv h
    subst ht
    exact ⟨fun _ => rfl, rfl, rfl, rfl, rfl⟩
  · cases c
    all_goals first
      | exact absurd rfl hcv
      | exact ⟨fun hcc => absurd hcc hcv, convert_error_fields _ _ _ _ _ h⟩

theorem builder_call_atomicity_witness :
    ((Call.allpassC 0 1).isConvert = false → initState = initState) ∧
    (initState.effects = initState.effects ∧
      initState.effects_log = initState.effects_log ∧
      initState.globals = initState.globals ∧
      initState.input_format = initState.input_format) :=
  builder_call_atomicity (Call.allpassC 0 1) initState initState (by decide)

/-- C3 counterexample: `fade()` with both lengths zero returns without
raising yet adds no entry to `effects_log`, so the log length does not
match the number of non-raising effect-method invocations. -/
theorem fade_noop_log_count_counterexample :
    okCount [Call.fadeC 0 0 "q"] initState = 1 ∧
    (runCalls [Call.fadeC 0 0 "q"] initState).effects_log.length = 0 ∧
    (runCalls [Call.fadeC 0 0 "q"] initState).effects_log.length ≠
      okCount [Call.fadeC 0 0 "q"] initState := by
  refine ⟨by decide, by decide, by decide⟩

/-- C3 (amended): across every sequence of modelled builder calls, the
length of `effects_log` grows by exactly the number of invocations that
returned without raising and appended at least one token to `effects`
(a no-op `fade` and a `convert` without a sample rate succeed but append
and log nothing). -/
theorem effects_log_counts_commits (cs : List Call) : ∀ s : TState,
    (runCalls cs s).effects_log.length = s.effects_log.length + commitCount cs s := by
  induction cs with
  | nil => intro s; simp [runCalls, commitCount]
  | cons c cs ih =>
      intro s
      simp only [runCalls, commitCount]
      rw [ih (stepState c s), stepState_log_length c s]
      omega

/-- C4: a positive `fade_in_len` alone appends `fade shape in_len`; a
positive `fade_out_len` alone appends `reverse fade shape out_len reverse`;
both positive append the fade-in group then the fade-out group; both zero
appends nothing and does not log `fade`. -/
theorem fade_spec (s : TState) (fade_shape : String) (fade_in_len fade_out_len : ℚ)
    (hs : fade_shape ∈ fade_shapes) (hin : 0 ≤ fade_in_len) (hout : 0 ≤ fade_out_len) :
    (0 < fade_in_len → fade_out_len = 0 →
      fade s fade_in_len fade_out_len fade_shape =
        .ok (addE s [Tok.lit "fade", Tok.lit fade_shape, Tok.num fade_in_len] "fade")) ∧
    (fade_in_len = 0 → 0 < fade_out_len →
      fade s fade_in_len fade_out_len fade_shape =
        .ok (addE s [Tok.lit "reverse", Tok.lit "fade", Tok.lit fade_shape,
          Tok.num fade_out_len, Tok.lit "reverse"] "fade")) ∧
    (0 < fade_in_len → 0 < fade_out_len →
      fade s fade_in_len fade_out_len fade_shape =
        .ok (addE s ([Tok.lit "fade", Tok.lit fade_shape, Tok.num fade_in_len] ++
          [Tok.lit "reverse", Tok.lit "fade", Tok.lit fade_shape,
           Tok.num fade_out_len, Tok.lit "reverse"]) "fade")) ∧
    (fade_in_len = 0 → fade_out_len = 0 →
      fade s fade_in_len fade_out_len fade_shape = .ok s) := by
  refine ⟨?_, ?_, ?_, ?_⟩ <;> intro h1 h2
  · subst h2
    simp only [fade]
    rw [if_neg (not_not_intro hs), if_neg (not_lt.mpr hin), if_neg (not_lt.mpr hout)]
    simp [h1]
  · subst h1
    simp only [fade]
    rw [if_neg (not_not_intro hs), if_neg (not_lt.mpr hin), if_neg (not_lt.mpr hout)]
    simp [h2]
  · simp only [fade]
    rw [if_neg (not_not_intro hs), if_neg (not_lt.mpr hin), if_neg (not_lt.mpr hout)]
    simp [h1, h2]
  · subst h1; subst h2
    simp only [fade]
    rw [if_neg (not_not_intro hs), if_neg (not_lt.mpr hin), if_neg (not_lt.mpr hout)]
    simp

theorem fade_spec_witness :
    fade initState 2 0 "q" =
      .ok (addE initState [Tok.lit "fade", Tok.lit "q", Tok.num 2] "fade") :=
  (fade_spec initState "q" 2 0 (by decide) (by norm_num) (by norm_num)).1
    (by norm_num) rfl

/-- C5 counterexample: with `location=-1` and `normalize=True` the token
group appended by `vad` starts with the `norm` token, not with `reverse`,
so the whole invocation is not wrapped between the two `reverse` tokens. -/
theorem vad_wrap_counterexample :
    ¬ ∃ mid : List Tok,
        vadTokens (-1) true 7 (1/4) 1 (1/4) 0 =
          [Tok.lit "reverse"] ++ (mid ++ [Tok.lit "reverse"]) := by
  rintro ⟨mid, h⟩
  have h0 : (vadTokens (-1) true 7 (1/4) 1 (1/4) 0).head? = some (Tok.lit "norm") := by
    decide
  rw [h] at h0
  simp at h0

/-- C5 (amended): for every valid `vad` call with `location=-1` the `vad`
invocation proper (the `vad` token and its parameter flags) is wrapped in
a leading and a trailing `reverse`, while the `norm` token emitted when
`normalize` is true precedes the leading `reverse`, outside the wrap; with
`location=1` no `reverse` token is emitted at all. -/
theorem vad_reverse_structure (s : TState) (normalize : Bool)
    (ath mad isb mg ip : ℚ) (hmad : 0 ≤ mad) (hisb : 0 ≤ isb)
    (hmg : 0 ≤ mg) (hip : 0 ≤ ip) :
    (vad s (-1) normalize ath mad isb mg ip =
      .ok (addE s ((if normalize then [Tok.lit "norm"] else []) ++
        ([Tok.lit "reverse"] ++ vadCore ath mad isb mg ip ++ [Tok.lit "reverse"]))
        "vad")) ∧
    (vad s 1 normalize ath mad isb mg ip =
      .ok (addE s ((if normalize then [Tok.lit "norm"] else []) ++
        vadCore ath mad isb mg ip) "vad")) ∧
    Tok.lit "reverse" ∉
      (if normalize then [Tok.lit "norm"] else []) ++ vadCore ath mad isb mg ip := by
  refine ⟨?_, ?_, ?_⟩
  · simp only [vad, vadTokens]
    rw [if_neg (by decide), if_neg (not_lt.mpr hmad), if_neg (not_lt.mpr hisb),
      if_neg (not_lt.mpr hmg), if_neg (not_lt.mpr hip)]
    cases normalize <;> simp
  · simp only [vad, vadTokens]
    rw [if_neg (by decide), if_neg (not_lt.mpr hmad), if_neg (not_lt.mpr hisb),
      if_neg (not_lt.mpr hmg), if_neg (not_lt.mpr hip)]
    cases normalize <;> simp
  · cases normalize <;> simp [vadCore]

theorem vad_reverse_structure_witness :
    vad initState (-1) true 7 (1/4) 1 (1/4) 0 =
      .ok (addE initState ([Tok.lit "norm"] ++
        ([Tok.lit "reverse"] ++ vadCore 7 (1/4) 1 (1/4) 0 ++ [Tok.lit "reverse"]))
        "vad") := by
  have h := (vad_reverse_structure initState true 7 (1/4) 1 (1/4) 0
    (by norm_num) (by norm_num) (by norm_num) (by norm_num)).1
  simpa using h

/-- C6: `compand` serializes its transfer-function points sorted ascending
by x regardless of the order supplied, and raises a validation error —
appending nothing — whenever `tf_points` is empty, contains a pair with a
positive coordinate, or contains two pairs with equal x-values. -/
theorem compand_spec (s : TState) (attack_time decay_time : ℚ)
    (soft_knee_db : Option ℚ) (tf_points : List (ℚ × ℚ))
    (ha : 0 < attack_time) (hd : 0 < decay_time) :
    (tf_points ≠ [] → (∀ p ∈ tf_points, p.1 ≤ 0 ∧ p.2 ≤ 0) →
      (tf_points.map Prod.fst).Nodup →
      compand s attack_time decay_time soft_knee_db tf_points =
        .ok (addE s ([Tok.lit "compand", Tok.pair attack_time decay_time] ++
          (match soft_knee_db with
           | some k => [Tok.knee k (tfFlatten (sortTf tf_points))]
           | none => [Tok.join (tfFlatten (sortTf tf_points))])) "compand") ∧
      List.Sorted (· ≤ ·) ((sortTf tf_points).map Prod.fst) ∧
      List.Perm (sortTf tf_points) tf_points) ∧
    (tf_points = [] →
      compand s attack_time decay_time soft_knee_db tf_points = .error s) ∧
    ((∃ p ∈ tf_points, 0 < p.1 ∨ 0 < p.2) →
      compand s attack_time decay_time soft_knee_db tf_points = .error s) ∧
    (¬ (tf_points.map Prod.fst).Nodup →
      compand s attack_time decay_time soft_knee_db tf_points = .error s) := by
  refine ⟨?_, ?_, ?_, ?_⟩
  · intro hne hle hnd
    refine ⟨?_, ?_, sortTf_perm tf_points⟩
    · have hany : ¬ (tf_points.any
          (fun p => decide (0 < p.1) || decide (0 < p.2)) = true) := by
        rw [List.any_eq_true]
        rintro ⟨p, hp, hb⟩
        simp only [Bool.or_eq_true, decide_eq_true_eq] at hb
        rcases hle p hp with ⟨hx, hy⟩
        rcases hb with hb | hb <;> linarith
      have hlen : ¬ (tf_points.length = 0) :=
        fun hh => hne (List.length_eq_zero.mp hh)
      simp only [compand]
      rw [if_neg (not_le.mpr ha), if_neg (not_le.mpr hd), if_neg hlen,
        if_neg hany, if_neg (not_not_intro hnd)]
    · simpa [List.Sorted, List.pairwise_map, keyLE] using sortTf_sorted tf_points
  · intro h
    subst h
    simp [compand, not_le.mpr ha, not_le.mpr hd]
  · rintro ⟨p, hp, hpos⟩
    simp only [compand]
    rw [if_neg (not_le.mpr ha), if_neg (not_le.mpr hd)]
    by_cases hlen : tf_points.length = 0
    · rw [if_pos hlen]
    · have hany : tf_points.any
          (fun p => decide (0 < p.1) || decide (0 < p.2)) = true := by
        rw [List.any_eq_true]
        exact ⟨p, hp, by rcases hpos with h | h <;> simp [h]⟩
      rw [if_neg hlen, if_pos hany]
  · intro hnd
    simp only [compand]
    rw [if_neg (not_le.mpr ha), if_neg (not_le.mpr hd)]
    by_cases hlen : tf_points.length = 0
    · rw [if_pos hlen]
    · rw [if_neg hlen]
      by_cases hany : tf_points.any
          (fun p => decide (0 < p.1) || decide (0 < p.2)) = true
      · rw [if_pos hany]
      · rw [if_neg hany, if_pos hnd]

theorem compand_spec_witness :
    compand initState (3/10) (4/5) (some 6) [(-20, -20), (-70, -70), (0, -5)] =
      .ok (addE initState [Tok.lit "compand", Tok.pair (3/10) (4/5),
        Tok.knee 6 [-70, -70, -20, -20, 0, -5]] "compand") := by
  have h := (((compand_spec initState (3/10) (4/5) (some 6)
    [(-20, -20), (-70, -70), (0, -5)] (by norm_num) (by norm_num)).1)
    (by decide) (by decide) (by decide)).1
  rw [h]
  norm_num [sortTf, insertTf, tfFlatten]

/-- C7: with `0 ≤ start_time < end_time`, `trim` appends the tokens
`trim start_time (end_time - start_time)` — a duration, not the absolute
end time — and raises a validation error when `start_time ≥ end_time` or
either value is negative. -/
theorem trim_spec (s : TState) (start_time end_time : ℚ) :
    (0 ≤ start_time → start_time < end_time →
      trim s start_time end_time = .ok (addE s
        [Tok.lit "trim", Tok.num start_time, Tok.num (end_time - start_time)] "trim")) ∧
    (end_time ≤ start_time → trim s start_time end_time = .error s) ∧
    (start_time < 0 → trim s start_time end_time = .error s) ∧
    (end_time < 0 → trim s start_time end_time = .error s) := by
  refine ⟨?_, ?_, ?_, ?_⟩
  · intro h1 h2
    simp only [trim]
    rw [if_neg (not_lt.mpr h1), if_neg (not_lt.mpr (le_trans h1 (le_of_lt h2))),
      if_neg (not_le.mpr h2)]
  · intro h
    simp only [trim]
    split_ifs with g1 g2 g3 <;> first | rfl | exact absurd h g3
  · intro h
    simp only [trim]
    split_ifs with g1 g2 g3 <;> first | rfl | exact absurd h g1
  · intro h
    simp only [trim]
    split_ifs with g1 g2 g3 <;> first | rfl | exact absurd h g2

theorem trim_spec_witness :
    trim initState 2 5 = .ok (addE initState
      [Tok.lit "trim", Tok.num 2, Tok.num 3] "trim") := by
  have h := (trim_spec initState 2 5).1 (by norm_num) (by norm_num)
  rw [h]
  norm_num

/-- C8: `pitch` renders its numeric token as `n_semitones * 100`
(hundredths of a semitone); every numeric shift succeeds — values outside
[-12, 12] only set the non-fatal warning condition — and `quick=True`
inserts the `-q` flag before the numeric token. -/
theorem pitch_spec (s : TState) (n_semitones : ℚ) (quick : Bool) :
    pitch s n_semitones quick =
      .ok (addE s ([Tok.lit "pitch"] ++ (if quick then [Tok.lit "-q"] else []) ++
        [Tok.num (n_semitones * 100)]) "pitch") ∧
    (pitchWarns n_semitones = true ↔ (n_semitones < -12 ∨ 12 < n_semitones)) ∧
    pitch s (-5) false = .ok (addE s [Tok.lit "pitch", Tok.num (-500)] "pitch") := by
  refine ⟨rfl, ?_, ?_⟩
  · simp [pitchWarns]
  · have h5 : ((-5 : ℚ)) * 100 = -500 := by norm_num
    simp [pitch, h5]

/-- C9: for every valid `silence` call with `buffer_around_silence=True`
the `-l` flag appears exactly once, immediately after the single `silence`
token, for every location — including `location=0`, whose trailing trim
group carries no `silence` token and no `-l` of its own. -/
theorem silence_buffer_flag (s : TState) (location : ℤ)
    (silence_threshold min_silence_duration : ℚ)
    (hloc : location ∈ ([-1, 0, 1] : List ℤ)) (h0 : 0 ≤ silence_threshold)
    (h1 : silence_threshold < 100) (h2 : 0 < min_silence_duration) :
    ∃ pre post : List Tok,
      silence s location silence_threshold min_silence_duration true =
        .ok (addE s (pre ++ [Tok.lit "silence", Tok.lit "-l"] ++ post) "silence") ∧
      Tok.lit "-l" ∉ pre ∧ Tok.lit "-l" ∉ post ∧
      Tok.lit "silence" ∉ pre ∧ Tok.lit "silence" ∉ post := by
  have hmem : location = -1 ∨ location = 0 ∨ location = 1 := by simpa using hloc
  rcases hmem with rfl | rfl | rfl
  · refine ⟨[Tok.lit "reverse"],
      [Tok.lit "1", Tok.num min_silence_duration, Tok.pct silence_threshold,
        Tok.lit "reverse"], ?_, by simp, by simp, by simp, by simp⟩
    simp only [silence, silenceTokens]
    rw [if_neg (by decide), if_neg (not_lt.mpr h0), if_neg (not_le.mpr h1),
      if_neg (not_le.mpr h2)]
    simp [addE]
  · refine ⟨[],
      [Tok.lit "1", Tok.num min_silence_duration, Tok.pct silence_threshold,
        Tok.lit "-1", Tok.num min_silence_duration, Tok.pct silence_threshold],
      ?_, by simp, by simp, by simp, by simp⟩
    simp only [silence, silenceTokens]
    rw [if_neg (by decide), if_neg (not_lt.mpr h0), if_neg (not_le.mpr h1),
      if_neg (not_le.mpr h2)]
    simp [addE]
  · refine ⟨[],
      [Tok.lit "1", Tok.num min_silence_duration, Tok.pct silence_threshold],
      ?_, by simp, by simp, by simp, by simp⟩
    simp only [silence, silenceTokens]
    rw [if_neg (by decide), if_neg (not_lt.mpr h0), if_neg (not_le.mpr h1),
      if_neg (not_le.mpr h2)]
    simp [addE]

theorem silence_buffer_flag_witness :
    ∃ pre post : List Tok,
      silence initState 0 (1/10) (1/10) true =
        .ok (addE initState (pre ++ [Tok.lit "silence", Tok.lit "-l"] ++ post)
          "silence") ∧
      Tok.lit "-l" ∉ pre ∧ Tok.lit "-l" ∉ post ∧
      Tok.lit "silence" ∉ pre ∧ Tok.lit "silence" ∉ post :=
  silence_buffer_flag initState 0 (1/10) (1/10) (by decide) (by norm_num)
    (by norm_num) (by norm_num)

/-- C10: `preview` involves no path validator — for every input path,
existing or not, it hands the playback collaborator exactly
`["play", "--no-show-progress"] ++ globals ++ input_format ++ [input_path]
++ effects` — whereas `build` consults the input validator first and fails
with a path error when it rejects. -/
theorem preview_no_validation (s : TState) (inp : String) :
    (previewArgs s inp = [Tok.lit "play", Tok.lit "--no-show-progress"] ++
      s.globals ++ s.input_format ++ [Tok.path inp] ++ s.effects) ∧
    (∀ (α : Type) (player : List Tok → α),
      preview player s inp = player (previewArgs s inp)) ∧
    (∀ (validIn validOut : String → Bool)
      (engine : List Tok → ℤ × String × String) (outp : String),
      validIn inp = false →
      build validIn validOut engine s inp outp = .error BuildErr.invalidInputPath) := by
  refine ⟨?_, ?_, ?_⟩
  · simp [previewArgs]
  · intro α player
    rfl
  · intro validIn validOut engine outp h
    simp [build, h]

theorem preview_no_validation_witness :
    build (fun _ => false) (fun _ => true) (fun _ => ((0 : ℤ), "", "")) initState
      "missing.wav" "out.wav" = .error BuildErr.invalidInputPath :=
  (preview_no_validation initState "missing.wav").2.2 (fun _ => false)
    (fun _ => true) (fun _ => ((0 : ℤ), "", "")) "out.wav" rfl

end Sox
